import Mathlib

/-!
Verification of the AshapuriCRM backend invoice engine.

Shallow embedding of the invoice financial-calculation and merge engine of
the AshapuriCRM backend (`src/controllers/adminInvoiceController.js`,
`src/utils/invoiceCalculations.js`), together with proofs settling the
specification claims about it.

Modelling conventions:
* JavaScript numbers are modelled as exact rationals (`ℚ`); the claims under
  scrutiny are about the algebraic structure of the computations, not about
  binary floating-point rounding.
* `Math.max(...)` applied to a spread of an empty array returns `-Infinity`
  in JavaScript; where that value can actually arise (the derived
  working-days figure of an empty employee batch) we model the result in
  `WithBot ℚ`, with `⊥` standing for `-Infinity`.
* `x || d` on an optional numeric field is `jsOr`: it yields `d` when the
  field is absent (`undefined`) or equal to `0` (both are falsy).
* `Math.round` is round-half-up towards `+∞`: `jsRound q = ⌊q + 1/2⌋`.
* Fallible operations return `Except`; persistence is explicit list state.
-/

/-- JavaScript `Math.round`: round half towards positive infinity. -/
def jsRound (q : ℚ) : ℤ := ⌊q + 1/2⌋

/-- JavaScript `x || d` for an optional numeric field: `undefined` and `0`
are both falsy, so they fall through to the default `d`. -/
def jsOr (x : Option ℚ) (d : ℚ) : ℚ :=
  match x with
  | none => d
  | some v => if v = 0 then d else v

/-- A raw attendance row as received by `createInvoice` (`attendanceData`
entries): `name`, `present_day`, `total_day`; either day field may be
absent. -/
structure Emp where
  name : String
  present_day : Option ℚ
  total_day : Option ℚ
deriving Repr, DecidableEq

/-- Function `getOvertimeThreshold` of `adminInvoiceController.js`: the overtime
threshold for a month with the given number of working days is
`totalDays - 4`. -/
def getOvertimeThreshold (totalDays : ℚ) : ℚ := totalDays - 4

/-- Expression `Math.max(...attendanceData.map(emp => emp.total_day || 0))`: the
working-days-in-month figure derived from the batch.  For an empty batch
JavaScript's `Math.max()` returns `-Infinity`, modelled as `⊥`. -/
def batchWorkingDays (batch : List Emp) : WithBot ℚ :=
  (batch.map (fun e => jsOr e.total_day 0)).foldl (fun a x => max a (x : WithBot ℚ)) ⊥

/-- One employee of the `processedEmployees` map in `createInvoice`
(adminInvoiceController.js lines 1133-1163). -/
structure ProcessedEmp where
  name : String
  presentDays : ℚ
  regularDays : ℚ
  overtimeDays : ℚ
  totalDays : Option ℚ
  salary : ℚ
deriving Repr, DecidableEq

/-- The body of the `processedEmployees` map in `createInvoice`: split the
employee's present days into regular and overtime days against the
threshold, then compute net pay (12% EPF and 0.75% ESIC removed from
gross). -/
def processEmployee (overtimeThreshold perDayRate overtimeRate : ℚ) (e : Emp) :
    ProcessedEmp :=
  let presentDay := jsOr e.present_day 0
  let empRegularDays := if overtimeThreshold < presentDay then overtimeThreshold else presentDay
  let empOvertimeDays :=
    if overtimeThreshold < presentDay then presentDay - overtimeThreshold else 0
  let regularPay := empRegularDays * perDayRate
  let overtimePay := empOvertimeDays * perDayRate * overtimeRate
  let gross := regularPay + overtimePay
  let epf := gross * (12/100)
  let esic := gross * (75/10000)
  let net := gross - (epf + esic)
  { name := e.name
    presentDays := presentDay
    regularDays := empRegularDays
    overtimeDays := empOvertimeDays
    totalDays := e.total_day
    salary := net }

/-- One step of the regular/overtime accumulation loop of the fallback
calculation in `createInvoice` (lines 1082-1090). -/
def overtimeSplitStep (overtimeThreshold : ℚ) (acc : ℚ × ℚ) (e : Emp) : ℚ × ℚ :=
  let presentDay := jsOr e.present_day 0
  if overtimeThreshold < presentDay then
    (acc.1 + overtimeThreshold, acc.2 + (presentDay - overtimeThreshold))
  else
    (acc.1 + presentDay, acc.2)

/-- The `(regularDays, overtimeDays)` totals of the fallback calculation.
For an empty batch the `forEach` body never runs and both accumulators stay
`0` (the `-Infinity` threshold produced by `Math.max()` is never used); for
a non-empty batch the threshold is `Math.max(...total_day || 0) - 4`. -/
def batchRegOt (batch : List Emp) : ℚ × ℚ :=
  match batch with
  | [] => (0, 0)
  | e :: es =>
    let workingDaysInMonth := es.foldl (fun a x => max a (jsOr x.total_day 0)) (jsOr e.total_day 0)
    let overtimeThreshold := getOvertimeThreshold workingDaysInMonth
    (e :: es).foldl (overtimeSplitStep overtimeThreshold) (0, 0)

/-- The quantities computed by the fallback branch of `createInvoice`
(lines 1068-1124) plus the `gstAmount` stored in `billDetails`
(line 1197). -/
structure CalcOut where
  totalEmployees : ℕ
  totalPresentDays : ℚ
  totalOvertimeDays : ℚ
  baseTotal : ℚ
  overtimeAmount : ℚ
  pf : ℚ
  esic : ℚ
  bonus : ℚ
  roundOffSubTotal : ℤ
  serviceCharge : ℚ
  totalBeforeTax : ℚ
  cgst : ℚ
  sgst : ℚ
  grandTotal : ℤ
  gstAmount : ℚ
deriving Repr, DecidableEq

/-- The fallback invoice-totals calculation of `createInvoice`
(adminInvoiceController.js lines 1068-1124; request defaults are
`gstPaidBy = "principal-employer"`, `serviceChargeRate = 7`,
`bonusRate = 0`, `overtimeRate = 1.5`, `perDayRate = 466`). -/
def createInvoiceFallbackCalc (batch : List Emp) (gstPaidBy : String)
    (serviceChargeRate bonusRate overtimeRate : ℚ) : CalcOut :=
  let totalEmployees := batch.length
  let ro := batchRegOt batch
  let regularDays := ro.1
  let overtimeDays := ro.2
  let perDayRate : ℚ := 466
  let baseTotal := regularDays * perDayRate
  let overtimeAmount := overtimeDays * perDayRate * overtimeRate
  let totalBeforeStatutory := baseTotal + overtimeAmount
  let pf := totalBeforeStatutory * (13/100)
  let esic := totalBeforeStatutory * (325/10000)
  let bonus := totalBeforeStatutory * (bonusRate / 100)
  let subTotal := baseTotal + overtimeAmount + pf + esic + bonus
  let roundOffSubTotal := jsRound subTotal
  let serviceCharge := (roundOffSubTotal : ℚ) * (serviceChargeRate / 100)
  let totalBeforeTax := (roundOffSubTotal : ℚ) + serviceCharge
  let cgst := totalBeforeTax * (9/100)
  let sgst := totalBeforeTax * (9/100)
  let grandTotal :=
    if gstPaidBy = "ashapuri" then jsRound (totalBeforeTax + cgst + sgst)
    else jsRound totalBeforeTax
  { totalEmployees := totalEmployees
    totalPresentDays := regularDays
    totalOvertimeDays := overtimeDays
    baseTotal := baseTotal
    overtimeAmount := overtimeAmount
    pf := pf
    esic := esic
    bonus := bonus
    roundOffSubTotal := roundOffSubTotal
    serviceCharge := serviceCharge
    totalBeforeTax := totalBeforeTax
    cgst := cgst
    sgst := sgst
    grandTotal := grandTotal
    gstAmount := cgst + sgst }

example :
    (createInvoiceFallbackCalc [⟨"A", some 10, some 30⟩] "principal-employer" 7 0 (3/2)).grandTotal
      = 5796 := by
  norm_num +decide [createInvoiceFallbackCalc, batchRegOt, overtimeSplitStep,
    getOvertimeThreshold, jsOr, jsRound]

example : (processEmployee (-4) 466 (3/2) ⟨"A", some 2, some 0⟩).overtimeDays = 6 := by
  norm_num [processEmployee, jsOr]

/-- JavaScript `String.prototype.trim` restricted to the space character,
the only whitespace these strings contain: drop leading and trailing
spaces. -/
def jsTrim (s : String) : String :=
  ⟨((s.data.dropWhile (· = ' ')).reverse.dropWhile (· = ' ')).reverse⟩

/-- JavaScript `String.prototype.toUpperCase` on ASCII text. -/
def jsToUpper (s : String) : String := ⟨s.data.map Char.toUpper⟩

/-- Word tables of `numberToWords` (`invoiceCalculations.js` lines 104-116). -/
def ntwUnits : List String :=
  ["", "One", "Two", "Three", "Four", "Five", "Six", "Seven", "Eight", "Nine"]

def ntwTeens : List String :=
  ["Ten", "Eleven", "Twelve", "Thirteen", "Fourteen", "Fifteen",
   "Sixteen", "Seventeen", "Eighteen", "Nineteen"]

def ntwTens : List String :=
  ["", "", "Twenty", "Thirty", "Forty", "Fifty",
   "Sixty", "Seventy", "Eighty", "Ninety"]

def ntwThousands : List String := ["", "Thousand", "Lakh", "Crore"]

/-- Helper `convertLessThanThousand` inside `numberToWords`: render `n < 1000`
(out-of-range JavaScript array reads would give `undefined`; every read here
is in range). -/
def convertLessThanThousand (n : ℕ) : String :=
  if n = 0 then ""
  else if n < 10 then ntwUnits.getD n "undefined"
  else if n < 20 then ntwTeens.getD (n - 10) "undefined"
  else if _h : n < 100 then
    jsTrim (ntwTens.getD (n / 10) "undefined" ++ " " ++ ntwUnits.getD (n % 10) "undefined")
  else
    jsTrim (ntwUnits.getD (n / 100) "undefined" ++ " Hundred " ++
      convertLessThanThousand (n % 100))
termination_by n
decreasing_by
  exact Nat.lt_of_lt_of_le (Nat.mod_lt n (by norm_num)) (by omega)

/-- The `while (num > 0)` loop of `numberToWords`: peel three decimal digits
per iteration, prefixing the rendered group (with its `thousands[place]`
label) onto `result`. -/
def numberToWordsLoop (num place : ℕ) (result : String) : String :=
  if _h : num = 0 then result
  else
    let result :=
      if num % 1000 ≠ 0 then
        let part := convertLessThanThousand (num % 1000)
        let part := if place > 0 then part ++ " " ++ ntwThousands.getD place "undefined" else part
        jsTrim (part ++ " " ++ result)
      else result
    numberToWordsLoop (num / 1000) (place + 1) result
termination_by num
decreasing_by
  exact Nat.div_lt_self (Nat.pos_of_ne_zero _h) (by norm_num)

/-- Function `numberToWords` of `invoiceCalculations.js` (lines 104-142): amount in
words; `0` short-circuits to the (non-uppercased) zero phrase, otherwise the
grouped rendering is uppercased with `" Rupees Only"` appended. -/
def numberToWords (num : ℕ) : String :=
  if num = 0 then "Zero Rupees Only"
  else jsToUpper (numberToWordsLoop num 0 "" ++ " Rupees Only")

example : numberToWords 0 = "Zero Rupees Only" := by decide
example : numberToWords 25500 = "TWENTY FIVE THOUSAND FIVE HUNDRED RUPEES ONLY" := by
  simp [numberToWords, numberToWordsLoop, convertLessThanThousand, jsTrim, jsToUpper,
    ntwUnits, ntwTens, ntwTens, ntwThousands]
example : numberToWords 100000 = "ONE HUNDRED THOUSAND RUPEES ONLY" := by
  simp [numberToWords, numberToWordsLoop, convertLessThanThousand, jsTrim, jsToUpper,
    ntwUnits, ntwTens, ntwTens, ntwThousands]

/-- The `billDetails` subdocument of a persisted invoice; every field may be
absent (the merge reads each with `|| 0`). -/
structure BillDetails where
  baseAmount : Option ℚ
  serviceCharge : Option ℚ
  pfAmount : Option ℚ
  esicAmount : Option ℚ
  bonusAmount : Option ℚ
  overtimeAmount : Option ℚ
  gstAmount : Option ℚ
  totalAmount : Option ℚ
deriving Repr, DecidableEq

/-- The `attendanceData` subdocument of a persisted invoice. -/
structure AttendanceAgg where
  totalEmployees : Option ℚ
  totalPresentDays : Option ℚ
  totalOvertimeDays : Option ℚ
  perDayRate : Option ℚ
  workingDays : Option ℚ
deriving Repr, DecidableEq

/-- A persisted invoice document, restricted to the fields `mergeInvoices`
reads.  `id` stands for the Mongo `_id` (ids are unique across the store);
`companyId`/`companyName` come from the populated company reference.  The
`billDetails` and `attendanceData` subdocuments may be absent (the merge
guards on their presence). -/
structure InvoiceDoc where
  id : ℕ
  companyId : ℕ
  companyName : String
  invoiceNumber : String
  isMerged : Bool
  taxType : String
  paymentMethod : String
  gstPaidBy : String
  serviceChargeRate : Option ℚ
  bonusRate : Option ℚ
  overtimeRate : Option ℚ
  billDetails : Option BillDetails
  attendanceData : Option AttendanceAgg
deriving Repr, DecidableEq

/-- The `mergedBillDetails` accumulator (all fields start at `0`). -/
structure MBill where
  baseAmount : ℚ
  serviceCharge : ℚ
  pfAmount : ℚ
  esicAmount : ℚ
  bonusAmount : ℚ
  overtimeAmount : ℚ
  gstAmount : ℚ
  totalAmount : ℚ
deriving Repr, DecidableEq

def MBill.zero : MBill := ⟨0, 0, 0, 0, 0, 0, 0, 0⟩

/-- The `mergedAttendanceData` accumulator (all fields start at `0`). -/
structure MAtt where
  totalEmployees : ℚ
  totalPresentDays : ℚ
  totalOvertimeDays : ℚ
  perDayRate : ℚ
  workingDays : ℚ
deriving Repr, DecidableEq

def MAtt.zero : MAtt := ⟨0, 0, 0, 0, 0⟩

/-- One iteration of the bill-details summation in the merge loop
(adminInvoiceController.js lines 176-189): skipped entirely when the source
invoice has no `billDetails`, otherwise each field is added with `|| 0`. -/
def addBill (acc : MBill) (inv : InvoiceDoc) : MBill :=
  match inv.billDetails with
  | none => acc
  | some b =>
    { baseAmount := acc.baseAmount + jsOr b.baseAmount 0
      serviceCharge := acc.serviceCharge + jsOr b.serviceCharge 0
      pfAmount := acc.pfAmount + jsOr b.pfAmount 0
      esicAmount := acc.esicAmount + jsOr b.esicAmount 0
      bonusAmount := acc.bonusAmount + jsOr b.bonusAmount 0
      overtimeAmount := acc.overtimeAmount + jsOr b.overtimeAmount 0
      gstAmount := acc.gstAmount + jsOr b.gstAmount 0
      totalAmount := acc.totalAmount + jsOr b.totalAmount 0 }

/-- One iteration of the attendance aggregation in the merge loop
(lines 191-208): counts are summed, `perDayRate` and `workingDays` take the
running maximum. -/
def addAtt (acc : MAtt) (inv : InvoiceDoc) : MAtt :=
  match inv.attendanceData with
  | none => acc
  | some a =>
    { totalEmployees := acc.totalEmployees + jsOr a.totalEmployees 0
      totalPresentDays := acc.totalPresentDays + jsOr a.totalPresentDays 0
      totalOvertimeDays := acc.totalOvertimeDays + jsOr a.totalOvertimeDays 0
      perDayRate := max acc.perDayRate (jsOr a.perDayRate 0)
      workingDays := max acc.workingDays (jsOr a.workingDays 0) }

/-- Keys of a JavaScript object built by inserting the elements of `l` in
order: `Object.keys` returns the non-numeric string keys in first-insertion
order, so this is the list of first occurrences (also models the
`[...new Set(xs)]` spreads, which keep first-insertion order likewise). -/
def firstSeen {α : Type} [DecidableEq α] (l : List α) : List α :=
  l.foldl (fun acc x => if x ∈ acc then acc else acc ++ [x]) []

/-- Helper `mostCommon` of `mergeInvoices` (lines 245-253): count occurrences, then
`Object.keys(counts).reduce((a, b) => counts[a] > counts[b] ? a : b)`.
`reduce` without an initial value throws on an empty array; that case is
modelled as `none` (it is unreachable in the merge, which passes at least 2
elements). -/
def mostCommon (arr : List String) : Option String :=
  match firstSeen arr with
  | [] => none
  | k :: ks => some (ks.foldl (fun a b => if arr.count a > arr.count b then a else b) k)

/-- An error response of `mergeInvoices`: HTTP status plus message. -/
structure MergeError where
  status : ℕ
  message : String
deriving Repr, DecidableEq

/-- The merged invoice document built by `mergeInvoices` (lines 256-295),
restricted to the fields the specification's claims are about; the file
metadata, primary `companyId`, `billTo` address/GST join, notes and the
employee concatenation are omitted.  `Math.max` over the (non-empty) rate
lists is modelled with a `⊥` seed in `WithBot ℚ`, mirroring `-Infinity`. -/
structure MergedInvoice where
  taxType : String
  paymentMethod : String
  gstPaidBy : String
  serviceChargeRate : WithBot ℚ
  bonusRate : WithBot ℚ
  overtimeRate : WithBot ℚ
  billDetails : MBill
  attendanceData : MAtt
  billToName : String
  isMerged : Bool
  sourceInvoices : List ℕ
  mergedCompanies : List ℕ
deriving Repr, DecidableEq

/-- The invoices fetched by `Invoice.find({_id: {$in: invoiceIds}})`: each
stored invoice whose id occurs in the request list, each at most once
(Mongo returns every matching document exactly once, regardless of
duplicates in `$in`). -/
def fetchByIds (db : List InvoiceDoc) (invoiceIds : List ℕ) : List InvoiceDoc :=
  db.filter (fun inv => inv.id ∈ invoiceIds)

/-- Function `mergeInvoices` of `adminInvoiceController.js` (lines 94-297), up to the
`save()` of the merged invoice.  The ObjectId-format validation (lines
106-115) is vacuous here because ids are already numbers.  Validation
failures return the controller's error response before anything is created;
on success the merged document is returned (and only then persisted). -/
def mergeInvoices (db : List InvoiceDoc) (invoiceIds : List ℕ) :
    Except MergeError MergedInvoice :=
  if invoiceIds.length < 2 then
    .error ⟨400, "At least 2 invoice IDs are required for merging"⟩
  else
    let invoices := fetchByIds db invoiceIds
    if invoices.length ≠ invoiceIds.length then
      let foundIds := invoices.map (·.id)
      let missingIds := invoiceIds.filter (fun id => id ∉ foundIds)
      .error ⟨404, "Invoices not found: " ++ String.intercalate ", " (missingIds.map toString)⟩
    else
      let alreadyMerged := invoices.filter (·.isMerged)
      if 0 < alreadyMerged.length then
        .error ⟨400, "Cannot merge already merged invoices: " ++
          String.intercalate ", " (alreadyMerged.map (·.invoiceNumber))⟩
      else
        let companyIds := firstSeen (invoices.map (·.companyId))
        let companyNames := firstSeen (invoices.map (·.companyName))
        let mergedBillDetails := invoices.foldl addBill MBill.zero
        let mergedAttendanceData := invoices.foldl addAtt MAtt.zero
        let taxTypes := invoices.map (·.taxType)
        let paymentMethods := invoices.map (·.paymentMethod)
        let gstPaidByArr := invoices.map (·.gstPaidBy)
        .ok
          { taxType := (mostCommon taxTypes).getD ""
            paymentMethod := (mostCommon paymentMethods).getD ""
            gstPaidBy := (mostCommon gstPaidByArr).getD ""
            serviceChargeRate :=
              (invoices.map (fun inv => jsOr inv.serviceChargeRate 7)).foldl
                (fun a x => max a (x : WithBot ℚ)) ⊥
            bonusRate :=
              (invoices.map (fun inv => jsOr inv.bonusRate 0)).foldl
                (fun a x => max a (x : WithBot ℚ)) ⊥
            overtimeRate :=
              (invoices.map (fun inv => jsOr inv.overtimeRate 0)).foldl
                (fun a x => max a (x : WithBot ℚ)) ⊥
            billDetails := mergedBillDetails
            attendanceData := mergedAttendanceData
            billToName := String.intercalate " + " companyNames
            isMerged := true
            sourceInvoices := invoiceIds
            mergedCompanies := companyIds }

/-- The merged-invoice records persisted by one call to `mergeInvoices`:
`save()` runs only on the success path, so an error creates nothing. -/
def mergeSaved (db : List InvoiceDoc) (invoiceIds : List ℕ) : List MergedInvoice :=
  match mergeInvoices db invoiceIds with
  | .ok m => [m]
  | .error _ => []

instance : DecidableEq (Except MergeError MergedInvoice) := fun a b =>
  match a, b with
  | .ok x, .ok y => decidable_of_iff (x = y) (by simp)
  | .error x, .error y => decidable_of_iff (x = y) (by simp)
  | .ok _, .error _ => isFalse (by simp)
  | .error _, .ok _ => isFalse (by simp)

example : mostCommon ["gst", "igst"] = some "igst" := by decide
example : mergeInvoices [] [5] = .error ⟨400, "At least 2 invoice IDs are required for merging"⟩ := by
  rfl

/-- Per-source contribution of `baseAmount` to the merged bill: `0` when the
source has no `billDetails`. -/
def billBaseAmount (inv : InvoiceDoc) : ℚ :=
  match inv.billDetails with | none => 0 | some b => jsOr b.baseAmount 0

def billServiceCharge (inv : InvoiceDoc) : ℚ :=
  match inv.billDetails with | none => 0 | some b => jsOr b.serviceCharge 0

def billPfAmount (inv : InvoiceDoc) : ℚ :=
  match inv.billDetails with | none => 0 | some b => jsOr b.pfAmount 0

def billEsicAmount (inv : InvoiceDoc) : ℚ :=
  match inv.billDetails with | none => 0 | some b => jsOr b.esicAmount 0

def billBonusAmount (inv : InvoiceDoc) : ℚ :=
  match inv.billDetails with | none => 0 | some b => jsOr b.bonusAmount 0

def billOvertimeAmount (inv : InvoiceDoc) : ℚ :=
  match inv.billDetails with | none => 0 | some b => jsOr b.overtimeAmount 0

def billGstAmount (inv : InvoiceDoc) : ℚ :=
  match inv.billDetails with | none => 0 | some b => jsOr b.gstAmount 0

def billTotalAmount (inv : InvoiceDoc) : ℚ :=
  match inv.billDetails with | none => 0 | some b => jsOr b.totalAmount 0

def attTotalEmployees (inv : InvoiceDoc) : ℚ :=
  match inv.attendanceData with | none => 0 | some a => jsOr a.totalEmployees 0

def attTotalPresentDays (inv : InvoiceDoc) : ℚ :=
  match inv.attendanceData with | none => 0 | some a => jsOr a.totalPresentDays 0

def attTotalOvertimeDays (inv : InvoiceDoc) : ℚ :=
  match inv.attendanceData with | none => 0 | some a => jsOr a.totalOvertimeDays 0

def attPerDayRate (inv : InvoiceDoc) : ℚ :=
  match inv.attendanceData with | none => 0 | some a => jsOr a.perDayRate 0

def attWorkingDays (inv : InvoiceDoc) : ℚ :=
  match inv.attendanceData with | none => 0 | some a => jsOr a.workingDays 0

lemma foldl_addBill (l : List InvoiceDoc) (acc : MBill) :
    l.foldl addBill acc =
      { baseAmount := acc.baseAmount + (l.map billBaseAmount).sum
        serviceCharge := acc.serviceCharge + (l.map billServiceCharge).sum
        pfAmount := acc.pfAmount + (l.map billPfAmount).sum
        esicAmount := acc.esicAmount + (l.map billEsicAmount).sum
        bonusAmount := acc.bonusAmount + (l.map billBonusAmount).sum
        overtimeAmount := acc.overtimeAmount + (l.map billOvertimeAmount).sum
        gstAmount := acc.gstAmount + (l.map billGstAmount).sum
        totalAmount := acc.totalAmount + (l.map billTotalAmount).sum } := by
  induction l generalizing acc with
  | nil => simp
  | cons i l ih =>
    rw [List.foldl_cons, ih]
    cases hb : i.billDetails <;>
      simp [addBill, hb, MBill.mk.injEq, billBaseAmount, billServiceCharge, billPfAmount,
        billEsicAmount, billBonusAmount, billOvertimeAmount, billGstAmount,
        billTotalAmount] <;>
      refine ⟨?_, ?_, ?_, ?_, ?_, ?_, ?_, ?_⟩ <;> ring

lemma foldl_addAtt_sums (l : List InvoiceDoc) (acc : MAtt) :
    (l.foldl addAtt acc).totalEmployees = acc.totalEmployees + (l.map attTotalEmployees).sum ∧
    (l.foldl addAtt acc).totalPresentDays
      = acc.totalPresentDays + (l.map attTotalPresentDays).sum ∧
    (l.foldl addAtt acc).totalOvertimeDays
      = acc.totalOvertimeDays + (l.map attTotalOvertimeDays).sum := by
  induction l generalizing acc with
  | nil => simp
  | cons i l ih =>
    rw [List.foldl_cons]
    cases ha : i.attendanceData with
    | none =>
      have haa : addAtt acc i = acc := by simp [addAtt, ha]
      rw [haa]
      rcases ih acc with ⟨h1, h2, h3⟩
      simp [h1, h2, h3, attTotalEmployees, attTotalPresentDays, attTotalOvertimeDays, ha]
    | some a =>
      rcases ih (addAtt acc i) with ⟨h1, h2, h3⟩
      refine ⟨?_, ?_, ?_⟩
      · rw [h1]
        simp only [addAtt, ha, attTotalEmployees, List.map_cons, List.sum_cons]
        ring
      · rw [h2]
        simp only [addAtt, ha, attTotalPresentDays, List.map_cons, List.sum_cons]
        ring
      · rw [h3]
        simp only [addAtt, ha, attTotalOvertimeDays, List.map_cons, List.sum_cons]
        ring

lemma foldl_addAtt_perDayRate (l : List InvoiceDoc) (acc : MAtt)
    (hnn : 0 ≤ acc.perDayRate) :
    acc.perDayRate ≤ (l.foldl addAtt acc).perDayRate ∧
    ∀ i ∈ l, attPerDayRate i ≤ (l.foldl addAtt acc).perDayRate := by
  induction l generalizing acc with
  | nil => simp
  | cons i l ih =>
    rw [List.foldl_cons]
    have hacc : acc.perDayRate ≤ (addAtt acc i).perDayRate := by
      cases ha : i.attendanceData <;> simp [addAtt, ha]
    rcases ih (addAtt acc i) (le_trans hnn hacc) with ⟨h1, h2⟩
    have hi : attPerDayRate i ≤ (addAtt acc i).perDayRate ∨ attPerDayRate i = 0 := by
      cases ha : i.attendanceData with
      | none => exact Or.inr (by simp [attPerDayRate, ha])
      | some a => exact Or.inl (by simp [addAtt, ha, attPerDayRate])
    refine ⟨le_trans hacc h1, ?_⟩
    intro j hj
    rcases List.mem_cons.mp hj with rfl | hj
    · rcases hi with h | h
      · exact le_trans h h1
      · exact h ▸ le_trans hnn (le_trans hacc h1)
    · exact h2 j hj

lemma foldl_addAtt_workingDays (l : List InvoiceDoc) (acc : MAtt)
    (hnn : 0 ≤ acc.workingDays) :
    acc.workingDays ≤ (l.foldl addAtt acc).workingDays ∧
    ∀ i ∈ l, attWorkingDays i ≤ (l.foldl addAtt acc).workingDays := by
  induction l generalizing acc with
  | nil => simp
  | cons i l ih =>
    rw [List.foldl_cons]
    have hacc : acc.workingDays ≤ (addAtt acc i).workingDays := by
      cases ha : i.attendanceData <;> simp [addAtt, ha]
    rcases ih (addAtt acc i) (le_trans hnn hacc) with ⟨h1, h2⟩
    have hi : attWorkingDays i ≤ (addAtt acc i).workingDays ∨ attWorkingDays i = 0 := by
      cases ha : i.attendanceData with
      | none => exact Or.inr (by simp [attWorkingDays, ha])
      | some a => exact Or.inl (by simp [addAtt, ha, attWorkingDays])
    refine ⟨le_trans hacc h1, ?_⟩
    intro j hj
    rcases List.mem_cons.mp hj with rfl | hj
    · rcases hi with h | h
      · exact le_trans h h1
      · exact h ▸ le_trans hnn (le_trans hacc h1)
    · exact h2 j hj

lemma foldl_addAtt_perDayRate_mem (l : List InvoiceDoc) (acc : MAtt) :
    (l.foldl addAtt acc).perDayRate = acc.perDayRate ∨
    (l.foldl addAtt acc).perDayRate ∈ l.map attPerDayRate := by
  induction l generalizing acc with
  | nil => simp
  | cons i l ih =>
    rw [List.foldl_cons]
    have hsplit : (addAtt acc i).perDayRate = acc.perDayRate ∨
        (addAtt acc i).perDayRate = attPerDayRate i := by
      cases ha : i.attendanceData with
      | none => exact Or.inl (by simp [addAtt, ha])
      | some a =>
        rcases max_choice acc.perDayRate (jsOr a.perDayRate 0) with hm | hm
        · exact Or.inl (by simp [addAtt, ha, hm])
        · exact Or.inr (by simp [addAtt, ha, hm, attPerDayRate])
    rcases ih (addAtt acc i) with h | h
    · rw [h]
      rcases hsplit with h2 | h2
      · exact Or.inl h2
      · exact Or.inr (by simp [h2])
    · exact Or.inr (by
        rcases List.mem_map.mp h with ⟨j, hj, hje⟩
        exact List.mem_map.mpr ⟨j, List.mem_cons_of_mem _ hj, hje⟩)

lemma foldl_addAtt_workingDays_mem (l : List InvoiceDoc) (acc : MAtt) :
    (l.foldl addAtt acc).workingDays = acc.workingDays ∨
    (l.foldl addAtt acc).workingDays ∈ l.map attWorkingDays := by
  induction l generalizing acc with
  | nil => simp
  | cons i l ih =>
    rw [List.foldl_cons]
    have hsplit : (addAtt acc i).workingDays = acc.workingDays ∨
        (addAtt acc i).workingDays = attWorkingDays i := by
      cases ha : i.attendanceData with
      | none => exact Or.inl (by simp [addAtt, ha])
      | some a =>
        rcases max_choice acc.workingDays (jsOr a.workingDays 0) with hm | hm
        · exact Or.inl (by simp [addAtt, ha, hm])
        · exact Or.inr (by simp [addAtt, ha, hm, attWorkingDays])
    rcases ih (addAtt acc i) with h | h
    · rw [h]
      rcases hsplit with h2 | h2
      · exact Or.inl h2
      · exact Or.inr (by simp [h2])
    · exact Or.inr (by
        rcases List.mem_map.mp h with ⟨j, hj, hje⟩
        exact List.mem_map.mpr ⟨j, List.mem_cons_of_mem _ hj, hje⟩)

lemma mergeInvoices_ok_inv (db : List InvoiceDoc) (ids : List ℕ) (m : MergedInvoice)
    (hok : mergeInvoices db ids = Except.ok m) :
    2 ≤ ids.length ∧ (fetchByIds db ids).length = ids.length ∧
    m.billDetails = (fetchByIds db ids).foldl addBill MBill.zero ∧
    m.attendanceData = (fetchByIds db ids).foldl addAtt MAtt.zero ∧
    m.taxType = (mostCommon ((fetchByIds db ids).map InvoiceDoc.taxType)).getD "" ∧
    m.paymentMethod
      = (mostCommon ((fetchByIds db ids).map InvoiceDoc.paymentMethod)).getD "" ∧
    m.gstPaidBy = (mostCommon ((fetchByIds db ids).map InvoiceDoc.gstPaidBy)).getD "" := by
  simp only [mergeInvoices] at hok
  split at hok
  · exact absurd hok (by simp)
  · split at hok
    · exact absurd hok (by simp)
    · split at hok
      · exact absurd hok (by simp)
      · rw [Except.ok.injEq] at hok
        subst hok
        refine ⟨by omega, by omega, rfl, rfl, rfl, rfl, rfl⟩

/-- Claim C5: for every successful merge (at least 2 valid, non-merged
sources), each `BillDetails` field of the merged invoice is the exact sum of
that field over the source invoices (missing fields counting as 0), the
attendance counts (`totalEmployees`, `totalPresentDays`,
`totalOvertimeDays`) are the sums over the sources, and `perDayRate` and
`workingDays` are the maxima over the sources (sources carry non-negative
rate/working-day values, as the persisted schema requires). -/
theorem claim_C5_merge_totals (db : List InvoiceDoc) (ids : List ℕ) (m : MergedInvoice)
    (hok : mergeInvoices db ids = Except.ok m)
    (hnn : ∀ inv ∈ fetchByIds db ids, 0 ≤ attPerDayRate inv ∧ 0 ≤ attWorkingDays inv) :
    m.billDetails.baseAmount = ((fetchByIds db ids).map billBaseAmount).sum ∧
    m.billDetails.serviceCharge = ((fetchByIds db ids).map billServiceCharge).sum ∧
    m.billDetails.pfAmount = ((fetchByIds db ids).map billPfAmount).sum ∧
    m.billDetails.esicAmount = ((fetchByIds db ids).map billEsicAmount).sum ∧
    m.billDetails.bonusAmount = ((fetchByIds db ids).map billBonusAmount).sum ∧
    m.billDetails.overtimeAmount = ((fetchByIds db ids).map billOvertimeAmount).sum ∧
    m.billDetails.gstAmount = ((fetchByIds db ids).map billGstAmount).sum ∧
    m.billDetails.totalAmount = ((fetchByIds db ids).map billTotalAmount).sum ∧
    m.attendanceData.totalEmployees = ((fetchByIds db ids).map attTotalEmployees).sum ∧
    m.attendanceData.totalPresentDays
      = ((fetchByIds db ids).map attTotalPresentDays).sum ∧
    m.attendanceData.totalOvertimeDays
      = ((fetchByIds db ids).map attTotalOvertimeDays).sum ∧
    m.attendanceData.perDayRate ∈ (fetchByIds db ids).map attPerDayRate ∧
    (∀ v ∈ (fetchByIds db ids).map attPerDayRate, v ≤ m.attendanceData.perDayRate) ∧
    m.attendanceData.workingDays ∈ (fetchByIds db ids).map attWorkingDays ∧
    (∀ v ∈ (fetchByIds db ids).map attWorkingDays, v ≤ m.attendanceData.workingDays) := by
  obtain ⟨hlen2, hlen, hbill, hatt, -, -, -⟩ := mergeInvoices_ok_inv db ids m hok
  have hne : fetchByIds db ids ≠ [] := by
    intro h
    rw [h] at hlen
    simp at hlen
    omega
  have hpd := foldl_addAtt_perDayRate (fetchByIds db ids) MAtt.zero (le_refl 0)
  have hwd := foldl_addAtt_workingDays (fetchByIds db ids) MAtt.zero (le_refl 0)
  have hpdm : m.attendanceData.perDayRate ∈ (fetchByIds db ids).map attPerDayRate := by
    rcases foldl_addAtt_perDayRate_mem (fetchByIds db ids) MAtt.zero with h | h
    · obtain ⟨i0, hi0⟩ := List.exists_mem_of_ne_nil _ hne
      have h0 : attPerDayRate i0 = 0 := by
        have hub := hpd.2 i0 hi0
        rw [h] at hub
        exact le_antisymm (by simpa [MAtt.zero] using hub) (hnn i0 hi0).1
      rw [hatt, h]
      have : (MAtt.zero.perDayRate : ℚ) = attPerDayRate i0 := by simp [MAtt.zero, h0]
      rw [this]
      exact List.mem_map_of_mem _ hi0
    · rw [hatt]
      exact h
  have hwdm : m.attendanceData.workingDays ∈ (fetchByIds db ids).map attWorkingDays := by
    rcases foldl_addAtt_workingDays_mem (fetchByIds db ids) MAtt.zero with h | h
    · obtain ⟨i0, hi0⟩ := List.exists_mem_of_ne_nil _ hne
      have h0 : attWorkingDays i0 = 0 := by
        have hub := hwd.2 i0 hi0
        rw [h] at hub
        exact le_antisymm (by simpa [MAtt.zero] using hub) (hnn i0 hi0).2
      rw [hatt, h]
      have : (MAtt.zero.workingDays : ℚ) = attWorkingDays i0 := by simp [MAtt.zero, h0]
      rw [this]
      exact List.mem_map_of_mem _ hi0
    · rw [hatt]
      exact h
  obtain ⟨hs1, hs2, hs3⟩ := foldl_addAtt_sums (fetchByIds db ids) MAtt.zero
  refine ⟨?_, ?_, ?_, ?_, ?_, ?_, ?_, ?_, ?_, ?_, ?_, hpdm, ?_, hwdm, ?_⟩
  · rw [hbill, foldl_addBill]; simp [MBill.zero]
  · rw [hbill, foldl_addBill]; simp [MBill.zero]
  · rw [hbill, foldl_addBill]; simp [MBill.zero]
  · rw [hbill, foldl_addBill]; simp [MBill.zero]
  · rw [hbill, foldl_addBill]; simp [MBill.zero]
  · rw [hbill, foldl_addBill]; simp [MBill.zero]
  · rw [hbill, foldl_addBill]; simp [MBill.zero]
  · rw [hbill, foldl_addBill]; simp [MBill.zero]
  · rw [hatt, hs1]; simp [MAtt.zero]
  · rw [hatt, hs2]; simp [MAtt.zero]
  · rw [hatt, hs3]; simp [MAtt.zero]
  · intro v hv
    rcases List.mem_map.mp hv with ⟨i, hi, rfl⟩
    rw [hatt]
    exact hpd.2 i hi
  · intro v hv
    rcases List.mem_map.mp hv with ⟨i, hi, rfl⟩
    rw [hatt]
    exact hwd.2 i hi

/-- A concrete non-merged source invoice used by the witnesses. -/
def invA : InvoiceDoc :=
  { id := 1, companyId := 10, companyName := "Acme", invoiceNumber := "INV-2025-001",
    isMerged := false, taxType := "gst", paymentMethod := "paid-by-us",
    gstPaidBy := "principal-employer", serviceChargeRate := some 7, bonusRate := some 5,
    overtimeRate := some (3/2),
    billDetails := some ⟨some 10000, some 700, some 1300, some 325, some 0, none,
      some 1800, some 10000⟩,
    attendanceData := some ⟨some 5, some 100, some 0, some 466, some 30⟩ }

/-- A second concrete non-merged source invoice used by the witnesses. -/
def invB : InvoiceDoc :=
  { id := 2, companyId := 20, companyName := "Beta", invoiceNumber := "INV-2025-002",
    isMerged := false, taxType := "gst", paymentMethod := "paid-by-us",
    gstPaidBy := "principal-employer", serviceChargeRate := some 10, bonusRate := some 0,
    overtimeRate := some 2,
    billDetails := some ⟨some 15500, some 1085, some 2015, some 503, some 0, some 100,
      some 2790, some 15500⟩,
    attendanceData := some ⟨some 7, some 150, some 10, some 500, some 31⟩ }

/-- The merged invoice produced from `invA` and `invB`. -/
def mAB : MergedInvoice :=
  { taxType := "gst", paymentMethod := "paid-by-us", gstPaidBy := "principal-employer",
    serviceChargeRate := (10 : ℚ), bonusRate := (5 : ℚ), overtimeRate := (2 : ℚ),
    billDetails := ⟨25500, 1785, 3315, 828, 0, 100, 4590, 25500⟩,
    attendanceData := ⟨12, 250, 10, 500, 31⟩,
    billToName := "Acme + Beta", isMerged := true, sourceInvoices := [1, 2],
    mergedCompanies := [10, 20] }

/-- Witness for C5: merging the two concrete invoices `invA` (total 10000)
and `invB` (total 15500) yields exact field-wise sums (total 25500) and the
maxima 500 and 31 of `perDayRate` and `workingDays`. -/
theorem claim_C5_witness :
    mergeInvoices [invA, invB] [1, 2] = Except.ok mAB ∧
    (∀ inv ∈ fetchByIds [invA, invB] [1, 2],
      0 ≤ attPerDayRate inv ∧ 0 ≤ attWorkingDays inv) ∧
    (mAB.billDetails.baseAmount = ((fetchByIds [invA, invB] [1, 2]).map billBaseAmount).sum ∧
     mAB.billDetails.serviceCharge
       = ((fetchByIds [invA, invB] [1, 2]).map billServiceCharge).sum ∧
     mAB.billDetails.pfAmount = ((fetchByIds [invA, invB] [1, 2]).map billPfAmount).sum ∧
     mAB.billDetails.esicAmount = ((fetchByIds [invA, invB] [1, 2]).map billEsicAmount).sum ∧
     mAB.billDetails.bonusAmount
       = ((fetchByIds [invA, invB] [1, 2]).map billBonusAmount).sum ∧
     mAB.billDetails.overtimeAmount
       = ((fetchByIds [invA, invB] [1, 2]).map billOvertimeAmount).sum ∧
     mAB.billDetails.gstAmount = ((fetchByIds [invA, invB] [1, 2]).map billGstAmount).sum ∧
     mAB.billDetails.totalAmount
       = ((fetchByIds [invA, invB] [1, 2]).map billTotalAmount).sum ∧
     mAB.attendanceData.totalEmployees
       = ((fetchByIds [invA, invB] [1, 2]).map attTotalEmployees).sum ∧
     mAB.attendanceData.totalPresentDays
       = ((fetchByIds [invA, invB] [1, 2]).map attTotalPresentDays).sum ∧
     mAB.attendanceData.totalOvertimeDays
       = ((fetchByIds [invA, invB] [1, 2]).map attTotalOvertimeDays).sum ∧
     mAB.attendanceData.perDayRate ∈ (fetchByIds [invA, invB] [1, 2]).map attPerDayRate ∧
     (∀ v ∈ (fetchByIds [invA, invB] [1, 2]).map attPerDayRate,
       v ≤ mAB.attendanceData.perDayRate) ∧
     mAB.attendanceData.workingDays ∈ (fetchByIds [invA, invB] [1, 2]).map attWorkingDays ∧
     (∀ v ∈ (fetchByIds [invA, invB] [1, 2]).map attWorkingDays,
       v ≤ mAB.attendanceData.workingDays)) := by
  have hok : mergeInvoices [invA, invB] [1, 2] = Except.ok mAB := by
    norm_num +decide [mergeInvoices, fetchByIds, invA, invB, mAB, addBill, addAtt,
      MBill.zero, MAtt.zero, firstSeen, mostCommon, jsOr, String.intercalate,
      max_def, MergedInvoice.mk.injEq, WithBot.coe_le_coe]
    rw [show (2 : WithBot ℚ) = ((2 : ℚ) : WithBot ℚ) by norm_num]
    exact WithBot.coe_le_coe.mpr (by norm_num)
  have hnn : ∀ inv ∈ fetchByIds [invA, invB] [1, 2],
      0 ≤ attPerDayRate inv ∧ 0 ≤ attWorkingDays inv := by
    norm_num +decide [fetchByIds, invA, invB, attPerDayRate, attWorkingDays, jsOr]
  exact ⟨hok, hnn, claim_C5_merge_totals [invA, invB] [1, 2] mAB hok hnn⟩

lemma fetchByIds_length_eq_filter (db : List InvoiceDoc) (ids : List ℕ) :
    (fetchByIds db ids).length = ((db.map InvoiceDoc.id).filter (fun i => i ∈ ids)).length := by
  induction db with
  | nil => rfl
  | cons inv db ih =>
    by_cases h : inv.id ∈ ids <;>
      simp_all [fetchByIds, List.filter_cons, h]

lemma nodup_length_filter_mem (L ids : List ℕ) (hL : L.Nodup) :
    (L.filter (fun i => i ∈ ids)).length = (L.toFinset ∩ ids.toFinset).card := by
  classical
  rw [← List.toFinset_card_of_nodup (hL.filter _)]
  congr 1
  ext x
  simp [List.mem_filter, Finset.mem_inter]

lemma fetchByIds_length_inter (db : List InvoiceDoc) (ids : List ℕ)
    (hdb : (db.map InvoiceDoc.id).Nodup) :
    (fetchByIds db ids).length = ((db.map InvoiceDoc.id).toFinset ∩ ids.toFinset).card := by
  rw [fetchByIds_length_eq_filter, nodup_length_filter_mem _ _ hdb]

lemma fetchByIds_length_lt_of_missing (db : List InvoiceDoc) (ids : List ℕ)
    (hdb : (db.map InvoiceDoc.id).Nodup) (i0 : ℕ) (hi0 : i0 ∈ ids)
    (hmiss : i0 ∉ db.map InvoiceDoc.id) :
    (fetchByIds db ids).length < ids.length := by
  classical
  rw [fetchByIds_length_inter db ids hdb]
  have hsub : (db.map InvoiceDoc.id).toFinset ∩ ids.toFinset ⊆ ids.toFinset.erase i0 := by
    intro x hx
    rcases Finset.mem_inter.mp hx with ⟨hxL, hxI⟩
    refine Finset.mem_erase.mpr ⟨?_, hxI⟩
    intro hxe
    exact hmiss (by simpa [hxe] using List.mem_toFinset.mp hxL)
  calc ((db.map InvoiceDoc.id).toFinset ∩ ids.toFinset).card
      ≤ (ids.toFinset.erase i0).card := Finset.card_le_card hsub
    _ < ids.toFinset.card := Finset.card_erase_lt_of_mem (List.mem_toFinset.mpr hi0)
    _ ≤ ids.length := by
        rw [List.card_toFinset]
        exact List.Sublist.length_le (List.dedup_sublist ids)

lemma fetchByIds_length_ne_of_dup (db : List InvoiceDoc) (ids : List ℕ)
    (hdb : (db.map InvoiceDoc.id).Nodup) (hsub : ∀ i ∈ ids, i ∈ db.map InvoiceDoc.id)
    (hnd : ¬ ids.Nodup) :
    (fetchByIds db ids).length < ids.length := by
  classical
  rw [fetchByIds_length_inter db ids hdb]
  have hinter : (db.map InvoiceDoc.id).toFinset ∩ ids.toFinset = ids.toFinset := by
    apply Finset.inter_eq_right.mpr
    intro x hx
    exact List.mem_toFinset.mpr (hsub x (List.mem_toFinset.mp hx))
  rw [hinter, List.card_toFinset]
  have hle : ids.dedup.length ≤ ids.length := List.Sublist.length_le (List.dedup_sublist ids)
  rcases lt_or_eq_of_le hle with h | h
  · exact h
  · exact absurd (List.dedup_eq_self.mp (List.Sublist.eq_of_length (List.dedup_sublist ids) h))
      hnd

lemma string_append_ne_empty (s t : String) (hs : s ≠ "") : s ++ t ≠ "" := by
  intro h
  apply hs
  have hd : s.data ++ t.data = [] := by
    have := congrArg String.data h
    simpa using this
  have : s.data = [] := (List.append_eq_nil.mp hd).1
  cases s
  simp_all

lemma mergeInvoices_cases (db : List InvoiceDoc) (ids : List ℕ) :
    (ids.length < 2 ∧ mergeInvoices db ids
        = Except.error ⟨400, "At least 2 invoice IDs are required for merging"⟩) ∨
    (¬ ids.length < 2 ∧ (fetchByIds db ids).length ≠ ids.length ∧
      mergeInvoices db ids = Except.error ⟨404, "Invoices not found: "
        ++ String.intercalate ", "
            ((ids.filter (fun id => id ∉ (fetchByIds db ids).map InvoiceDoc.id)).map
              toString)⟩) ∨
    (¬ ids.length < 2 ∧ (fetchByIds db ids).length = ids.length ∧
      0 < ((fetchByIds db ids).filter (·.isMerged)).length ∧
      mergeInvoices db ids = Except.error ⟨400, "Cannot merge already merged invoices: "
        ++ String.intercalate ", "
            (((fetchByIds db ids).filter (·.isMerged)).map InvoiceDoc.invoiceNumber)⟩) ∨
    (¬ ids.length < 2 ∧ (fetchByIds db ids).length = ids.length ∧
      ((fetchByIds db ids).filter (·.isMerged)).length = 0 ∧
      ∃ m, mergeInvoices db ids = Except.ok m) := by
  by_cases h1 : ids.length < 2
  · exact Or.inl ⟨h1, by simp only [mergeInvoices, if_pos h1]⟩
  · by_cases h2 : (fetchByIds db ids).length = ids.length
    · by_cases h3 : 0 < ((fetchByIds db ids).filter (·.isMerged)).length
      · refine Or.inr (Or.inr (Or.inl ⟨h1, h2, h3, ?_⟩))
        simp only [mergeInvoices, if_neg h1]
        rw [if_neg (by simpa using h2), if_pos h3]
      · refine Or.inr (Or.inr (Or.inr ⟨h1, h2, by omega, ?_⟩))
        cases hmc : mergeInvoices db ids with
        | ok m => exact ⟨m, rfl⟩
        | error e =>
          simp only [mergeInvoices, if_neg h1] at hmc
          rw [if_neg (by simpa using h2), if_neg h3] at hmc
          exact absurd hmc (by simp)
    · refine Or.inr (Or.inl ⟨h1, h2, ?_⟩)
      simp only [mergeInvoices, if_neg h1]
      rw [if_pos (by simpa using h2)]

/-- Claim C6: a merge request with fewer than 2 ids, an id that resolves to
no stored invoice, or an already-merged source invoice fails with an
input (400) or not-found (404) error carrying a non-empty message, and no
merged invoice record is saved. -/
theorem claim_C6_merge_validation (db : List InvoiceDoc) (ids : List ℕ)
    (hdb : (db.map InvoiceDoc.id).Nodup)
    (hbad : ids.length < 2 ∨ (∃ i ∈ ids, i ∉ db.map InvoiceDoc.id) ∨
            (∃ inv ∈ fetchByIds db ids, inv.isMerged = true)) :
    ∃ e, mergeInvoices db ids = Except.error e ∧ (e.status = 400 ∨ e.status = 404) ∧
      e.message ≠ "" ∧ mergeSaved db ids = [] := by
  have hsaved : ∀ e, mergeInvoices db ids = Except.error e → mergeSaved db ids = [] := by
    intro e he
    simp [mergeSaved, he]
  rcases mergeInvoices_cases db ids with
    ⟨h1, he⟩ | ⟨h1, hne, he⟩ | ⟨h1, hlen, hm, he⟩ | ⟨h1, hlen, hm0, m, he⟩
  · exact ⟨_, he, Or.inl rfl, by decide, hsaved _ he⟩
  · exact ⟨_, he, Or.inr rfl, string_append_ne_empty _ _ (by decide), hsaved _ he⟩
  · exact ⟨_, he, Or.inl rfl, string_append_ne_empty _ _ (by decide), hsaved _ he⟩
  · exfalso
    rcases hbad with hb | ⟨i0, hi0, hmiss⟩ | ⟨inv, hinv, hmrg⟩
    · exact h1 hb
    · have := fetchByIds_length_lt_of_missing db ids hdb i0 hi0 hmiss
      omega
    · have hmem : inv ∈ (fetchByIds db ids).filter (·.isMerged) :=
        List.mem_filter.mpr ⟨hinv, by simp [hmrg]⟩
      have hpos := List.length_pos_of_mem hmem
      omega

/-- Witness for C6: merging the single id `[1]` against the concrete store
`[invA, invB]` is rejected with an input error and nothing is saved. -/
theorem claim_C6_witness :
    (([invA, invB].map InvoiceDoc.id).Nodup) ∧
    (([1] : List ℕ).length < 2 ∨ (∃ i ∈ ([1] : List ℕ), i ∉ [invA, invB].map InvoiceDoc.id) ∨
      (∃ inv ∈ fetchByIds [invA, invB] [1], inv.isMerged = true)) ∧
    (∃ e, mergeInvoices [invA, invB] [1] = Except.error e ∧
      (e.status = 400 ∨ e.status = 404) ∧ e.message ≠ "" ∧ mergeSaved [invA, invB] [1] = []) := by
  refine ⟨by decide, Or.inl (by decide), ?_⟩
  exact claim_C6_merge_validation [invA, invB] [1] (by decide) (Or.inl (by decide))

/-- Claim C10: when the id list repeats an existing invoice id (so every id
resolves but the distinct fetched invoices number fewer than the raw id
count), the merge fails with a 404 not-found error and saves nothing. -/
theorem claim_C10_duplicate_ids (db : List InvoiceDoc) (ids : List ℕ) (i0 : ℕ)
    (hdb : (db.map InvoiceDoc.id).Nodup)
    (hdup : 2 ≤ ids.count i0)
    (hsub : ∀ i ∈ ids, i ∈ db.map InvoiceDoc.id) :
    ∃ e, mergeInvoices db ids = Except.error e ∧ e.status = 404 ∧
      mergeSaved db ids = [] := by
  have hlen2 : 2 ≤ ids.length := le_trans hdup (List.count_le_length _ _)
  have hnd : ¬ ids.Nodup := by
    intro h
    have := List.nodup_iff_count_le_one.mp h i0
    omega
  have hlt := fetchByIds_length_ne_of_dup db ids hdb hsub hnd
  rcases mergeInvoices_cases db ids with
    ⟨h1, he⟩ | ⟨h1, hne, he⟩ | ⟨h1, hlen, hm, he⟩ | ⟨h1, hlen, hm0, m, he⟩
  · omega
  · exact ⟨_, he, rfl, by simp [mergeSaved, he]⟩
  · omega
  · omega

/-- Witness for C10: the request `[1, 1]` repeats the id of `invA`; both
entries resolve, yet the merge returns a 404 error and saves nothing. -/
theorem claim_C10_witness :
    (([invA, invB].map InvoiceDoc.id).Nodup) ∧
    2 ≤ ([1, 1] : List ℕ).count 1 ∧
    (∀ i ∈ ([1, 1] : List ℕ), i ∈ [invA, invB].map InvoiceDoc.id) ∧
    (∃ e, mergeInvoices [invA, invB] [1, 1] = Except.error e ∧ e.status = 404 ∧
      mergeSaved [invA, invB] [1, 1] = []) := by
  refine ⟨by decide, by decide, by decide, ?_⟩
  exact claim_C10_duplicate_ids [invA, invB] [1, 1] 1 (by decide) (by decide) (by decide)

lemma firstSeen_go_mem {α : Type} [DecidableEq α] (l acc : List α) (x : α) :
    x ∈ l.foldl (fun acc y => if y ∈ acc then acc else acc ++ [y]) acc ↔
      x ∈ acc ∨ x ∈ l := by
  induction l generalizing acc with
  | nil => simp
  | cons a l ih =>
    simp only [List.foldl_cons]
    by_cases h : a ∈ acc
    · rw [if_pos h, ih]
      constructor
      · rintro (hx | hx)
        · exact Or.inl hx
        · exact Or.inr (List.mem_cons_of_mem _ hx)
      · rintro (hx | hx)
        · exact Or.inl hx
        · rcases List.mem_cons.mp hx with rfl | hx
          · exact Or.inl h
          · exact Or.inr hx
    · rw [if_neg h, ih]
      simp [List.mem_append, or_assoc]

lemma mem_firstSeen {α : Type} [DecidableEq α] (l : List α) (x : α) :
    x ∈ firstSeen l ↔ x ∈ l := by
  rw [firstSeen, firstSeen_go_mem]
  simp

lemma firstSeen_go_nodup {α : Type} [DecidableEq α] (l acc : List α) (hacc : acc.Nodup) :
    (l.foldl (fun acc y => if y ∈ acc then acc else acc ++ [y]) acc).Nodup := by
  induction l generalizing acc with
  | nil => exact hacc
  | cons a l ih =>
    simp only [List.foldl_cons]
    by_cases h : a ∈ acc
    · rw [if_pos h]
      exact ih acc hacc
    · rw [if_neg h]
      exact ih _ (by simp [List.nodup_append, hacc, h])

lemma firstSeen_nodup {α : Type} [DecidableEq α] (l : List α) : (firstSeen l).Nodup :=
  firstSeen_go_nodup l [] List.nodup_nil

lemma firstSeen_ne_nil {α : Type} [DecidableEq α] (l : List α) (hne : l ≠ []) :
    firstSeen l ≠ [] := by
  cases l with
  | nil => exact absurd rfl hne
  | cons a l =>
    intro h
    have : a ∈ firstSeen (a :: l) := (mem_firstSeen _ _).mpr (List.mem_cons_self _ _)
    rw [h] at this
    exact absurd this (List.not_mem_nil a)

lemma voteFold_count_le (cnt : String → ℕ) (ks : List String) (a : String) :
    cnt a ≤ cnt (ks.foldl (fun x y => if cnt x > cnt y then x else y) a) ∧
    ∀ x ∈ ks, cnt x ≤ cnt (ks.foldl (fun x y => if cnt x > cnt y then x else y) a) := by
  induction ks generalizing a with
  | nil => simp
  | cons b ks ih =>
    simp only [List.foldl_cons]
    have hac : cnt a ≤ cnt (if cnt a > cnt b then a else b) ∧
        cnt b ≤ cnt (if cnt a > cnt b then a else b) := by
      by_cases h : cnt a > cnt b <;> simp [h] <;> omega
    rcases ih (if cnt a > cnt b then a else b) with ⟨h1, h2⟩
    refine ⟨le_trans hac.1 h1, ?_⟩
    intro x hx
    rcases List.mem_cons.mp hx with rfl | hx
    · exact le_trans hac.2 h1
    · exact h2 x hx

lemma voteFold_last_max (cnt : String → ℕ) (ks : List String) (a : String) :
    (ks.foldl (fun x y => if cnt x > cnt y then x else y) a = a ∧
      ∀ x ∈ ks, cnt x < cnt a) ∨
    (∃ l1 l2, ks = l1 ++ (ks.foldl (fun x y => if cnt x > cnt y then x else y) a) :: l2 ∧
      cnt a ≤ cnt (ks.foldl (fun x y => if cnt x > cnt y then x else y) a) ∧
      ∀ x ∈ l2, cnt x < cnt (ks.foldl (fun x y => if cnt x > cnt y then x else y) a)) := by
  induction ks generalizing a with
  | nil => exact Or.inl ⟨rfl, by simp⟩
  | cons b ks ih =>
    simp only [List.foldl_cons]
    by_cases h : cnt a > cnt b
    · rw [if_pos h]
      rcases ih a with ⟨heq, hall⟩ | ⟨l1, l2, hsp, hge, hlt⟩
      · refine Or.inl ⟨heq, ?_⟩
        intro x hx
        rcases List.mem_cons.mp hx with rfl | hx
        · exact h
        · exact hall x hx
      · exact Or.inr ⟨b :: l1, l2,
          by rw [List.cons_append]; exact congrArg (List.cons b) hsp, hge, hlt⟩
    · rw [if_neg h]
      rcases ih b with ⟨heq, hall⟩ | ⟨l1, l2, hsp, hge, hlt⟩
      · exact Or.inr ⟨[], ks, by rw [heq]; rfl, by rw [heq]; omega, by rw [heq]; exact hall⟩
      · exact Or.inr ⟨b :: l1, l2,
          by rw [List.cons_append]; exact congrArg (List.cons b) hsp,
          le_trans (by omega) hge, hlt⟩

lemma nodup_split_unique {α : Type} (r : α) :
    ∀ (l1 l2 m1 m2 : List α), (l1 ++ r :: l2).Nodup → l1 ++ r :: l2 = m1 ++ r :: m2 →
      l1 = m1 ∧ l2 = m2 := by
  intro l1
  induction l1 with
  | nil =>
    intro l2 m1 m2 hnd heq
    cases m1 with
    | nil =>
      simp only [List.nil_append] at heq
      exact ⟨rfl, (List.cons.inj heq).2⟩
    | cons h t =>
      exfalso
      simp only [List.nil_append, List.cons_append] at heq
      rcases List.cons.inj heq with ⟨rfl, hl2⟩
      have hr : r ∈ l2 := by
        rw [hl2]
        exact List.mem_append_right _ (List.mem_cons_self _ _)
      exact (List.nodup_cons.mp hnd).1 hr
  | cons h t ih =>
    intro l2 m1 m2 hnd heq
    cases m1 with
    | nil =>
      exfalso
      simp only [List.cons_append, List.nil_append] at heq
      rcases List.cons.inj heq with ⟨rfl, hl2⟩
      have hr : h ∈ t ++ h :: l2 := List.mem_append_right _ (List.mem_cons_self _ _)
      rw [List.cons_append] at hnd
      exact (List.nodup_cons.mp hnd).1 hr
    | cons h' t' =>
      simp only [List.cons_append] at heq hnd
      rcases List.cons.inj heq with ⟨rfl, htail⟩
      rcases ih l2 t' m2 (List.nodup_cons.mp hnd).2 htail with ⟨rfl, rfl⟩
      exact ⟨rfl, rfl⟩

/-- Claim C7, amended: for every non-empty voting list, `mostCommon` picks a
value of maximal occurrence count, deterministically; but when several
values are tied for the maximum, the value chosen is the one whose first
occurrence comes LATEST in the vote-counting pass (every value appearing
after the winner in first-seen order has a strictly smaller count), not the
earliest as the claim states. -/
theorem claim_C7_amended_majority (arr : List String) (hne : arr ≠ []) :
    ∃ r, mostCommon arr = some r ∧ r ∈ arr ∧
      (∀ x ∈ arr, arr.count x ≤ arr.count r) ∧
      ∀ l1 l2, firstSeen arr = l1 ++ r :: l2 → ∀ x ∈ l2, arr.count x < arr.count r := by
  cases hfs : firstSeen arr with
  | nil => exact absurd hfs (firstSeen_ne_nil arr hne)
  | cons k ks =>
    refine ⟨ks.foldl (fun a b => if arr.count a > arr.count b then a else b) k, ?_, ?_, ?_, ?_⟩
    · simp [mostCommon, hfs]
    · have hrfs : ks.foldl (fun a b => if arr.count a > arr.count b then a else b) k
          ∈ firstSeen arr := by
        rw [hfs]
        rcases voteFold_last_max (fun x => arr.count x) ks k with ⟨heq, -⟩ | ⟨l1, l2, hsp, -, -⟩
        · rw [heq]
          exact List.mem_cons_self _ _
        · refine List.mem_cons_of_mem _ ?_
          have h := List.mem_append_right l1 (List.mem_cons_self
            (ks.foldl (fun a b => if arr.count a > arr.count b then a else b) k) l2)
          rw [← hsp] at h
          exact h
      exact (mem_firstSeen _ _).mp hrfs
    · intro x hx
      have hxfs : x ∈ firstSeen arr := (mem_firstSeen _ _).mpr hx
      rw [hfs] at hxfs
      rcases voteFold_count_le (fun y => arr.count y) ks k with ⟨h1, h2⟩
      rcases List.mem_cons.mp hxfs with rfl | hxk
      · exact h1
      · exact h2 x hxk
    · intro l1 l2 hsplit x hx
      have hnd : (firstSeen arr).Nodup := firstSeen_nodup arr
      rcases voteFold_last_max (fun y => arr.count y) ks k with ⟨heq, hall⟩ | ⟨m1, m2, hsp, -, hlt⟩
      · have hsplit2 := hsplit
        rw [heq] at hsplit2
        have hdec : ([] : List String) ++
            (ks.foldl (fun a b => if arr.count a > arr.count b then a else b) k) :: ks
            = l1 ++ (ks.foldl (fun a b => if arr.count a > arr.count b then a else b) k) :: l2 := by
          rw [List.nil_append, heq]
          exact hsplit2
        have hnd2 : (([] : List String) ++
            (ks.foldl (fun a b => if arr.count a > arr.count b then a else b) k) :: ks).Nodup := by
          rw [List.nil_append, heq, ← hfs]
          exact hnd
        rcases nodup_split_unique _ _ _ _ _ hnd2 hdec with ⟨-, rfl⟩
        rw [heq]
        exact hall x hx
      · have hdec : (k :: m1) ++
            (ks.foldl (fun a b => if arr.count a > arr.count b then a else b) k) :: m2
            = l1 ++ (ks.foldl (fun a b => if arr.count a > arr.count b then a else b) k) :: l2 := by
          rw [List.cons_append, ← hsp]
          exact hsplit
        have hnd2 : ((k :: m1) ++
            (ks.foldl (fun a b => if arr.count a > arr.count b then a else b) k) :: m2).Nodup := by
          rw [List.cons_append, ← hsp, ← hfs]
          exact hnd
        rcases nodup_split_unique _ _ _ _ _ hnd2 hdec with ⟨-, rfl⟩
        exact hlt x hx

/-- A minimal source invoice (no bill or attendance data) used by the C7
counterexample. -/
def invG : InvoiceDoc :=
  { id := 1, companyId := 10, companyName := "Acme", invoiceNumber := "INV-2025-001",
    isMerged := false, taxType := "gst", paymentMethod := "paid-by-us",
    gstPaidBy := "principal-employer", serviceChargeRate := none, bonusRate := none,
    overtimeRate := none, billDetails := none, attendanceData := none }

/-- A second minimal source invoice, identical except for its identity
fields and `taxType = "igst"`. -/
def invI : InvoiceDoc :=
  { id := 2, companyId := 20, companyName := "Beta", invoiceNumber := "INV-2025-002",
    isMerged := false, taxType := "igst", paymentMethod := "paid-by-us",
    gstPaidBy := "principal-employer", serviceChargeRate := none, bonusRate := none,
    overtimeRate := none, billDetails := none, attendanceData := none }

/-- The merged invoice produced from `invG` and `invI`. -/
def mGI : MergedInvoice :=
  { taxType := "igst", paymentMethod := "paid-by-us", gstPaidBy := "principal-employer",
    serviceChargeRate := (7 : ℚ), bonusRate := (0 : ℚ), overtimeRate := (0 : ℚ),
    billDetails := MBill.zero, attendanceData := MAtt.zero,
    billToName := "Acme + Beta", isMerged := true, sourceInvoices := [1, 2],
    mergedCompanies := [10, 20] }

/-- Counterexample for C7: the two sources' tax types `"gst"` and `"igst"`
are tied (one vote each) and `"gst"` is seen first in the vote-counting
pass, yet the merged invoice's `taxType` is `"igst"` — the later-seen value
wins the tie, contradicting the claim's earlier-first-occurrence rule. -/
theorem claim_C7_counterexample :
    List.count "gst" ((fetchByIds [invG, invI] [1, 2]).map InvoiceDoc.taxType)
      = List.count "igst" ((fetchByIds [invG, invI] [1, 2]).map InvoiceDoc.taxType) ∧
    firstSeen ((fetchByIds [invG, invI] [1, 2]).map InvoiceDoc.taxType) = ["gst", "igst"] ∧
    mergeInvoices [invG, invI] [1, 2] = Except.ok mGI ∧
    mGI.taxType = "igst" := by
  refine ⟨by decide, by decide, ?_, rfl⟩
  norm_num +decide [mergeInvoices, fetchByIds, invG, invI, mGI, addBill, addAtt,
    MBill.zero, MAtt.zero, firstSeen, mostCommon, jsOr, String.intercalate,
    max_def, MergedInvoice.mk.injEq, WithBot.coe_le_coe]

/-- Witness for C7's amended statement at the concrete voting list
`["gst", "igst", "igst"]`. -/
theorem claim_C7_witness :
    (["gst", "igst", "igst"] : List String) ≠ [] ∧
    (∃ r, mostCommon ["gst", "igst", "igst"] = some r ∧ r ∈ ["gst", "igst", "igst"] ∧
      (∀ x ∈ ["gst", "igst", "igst"],
        List.count x ["gst", "igst", "igst"] ≤ List.count r ["gst", "igst", "igst"]) ∧
      ∀ l1 l2, firstSeen ["gst", "igst", "igst"] = l1 ++ r :: l2 →
        ∀ x ∈ l2, List.count x ["gst", "igst", "igst"] < List.count r ["gst", "igst", "igst"]) :=
  ⟨by decide, claim_C7_amended_majority ["gst", "igst", "igst"] (by decide)⟩

/-- Claim C1: on the invoice-creation calculation path, the service charge
is always the rounded subtotal times `serviceChargeRate / 100`, where the
subtotal is base amount + overtime + PF + ESIC + bonus; at a concrete batch
it differs from a charge computed on the statutory-free base amount and
from one computed on the un-rounded subtotal. -/
theorem claim_C1_service_charge_after_rounding :
    (∀ (batch : List Emp) (gstPaidBy : String) (serviceChargeRate bonusRate overtimeRate : ℚ),
      (createInvoiceFallbackCalc batch gstPaidBy serviceChargeRate bonusRate
          overtimeRate).serviceCharge
        = ((jsRound
            ((createInvoiceFallbackCalc batch gstPaidBy serviceChargeRate bonusRate
                overtimeRate).baseTotal
              + (createInvoiceFallbackCalc batch gstPaidBy serviceChargeRate bonusRate
                  overtimeRate).overtimeAmount
              + (createInvoiceFallbackCalc batch gstPaidBy serviceChargeRate bonusRate
                  overtimeRate).pf
              + (createInvoiceFallbackCalc batch gstPaidBy serviceChargeRate bonusRate
                  overtimeRate).esic
              + (createInvoiceFallbackCalc batch gstPaidBy serviceChargeRate bonusRate
                  overtimeRate).bonus) : ℤ) : ℚ) * (serviceChargeRate / 100)) ∧
    (createInvoiceFallbackCalc [⟨"A", some 10, some 30⟩] "principal-employer" 7 0
        (3/2)).serviceCharge
      ≠ (createInvoiceFallbackCalc [⟨"A", some 10, some 30⟩] "principal-employer" 7 0
          (3/2)).baseTotal * (7/100) ∧
    (createInvoiceFallbackCalc [⟨"A", some 10, some 30⟩] "principal-employer" 7 0
        (3/2)).serviceCharge
      ≠ ((createInvoiceFallbackCalc [⟨"A", some 10, some 30⟩] "principal-employer" 7 0
            (3/2)).baseTotal
          + (createInvoiceFallbackCalc [⟨"A", some 10, some 30⟩] "principal-employer" 7 0
              (3/2)).overtimeAmount
          + (createInvoiceFallbackCalc [⟨"A", some 10, some 30⟩] "principal-employer" 7 0
              (3/2)).pf
          + (createInvoiceFallbackCalc [⟨"A", some 10, some 30⟩] "principal-employer" 7 0
              (3/2)).esic
          + (createInvoiceFallbackCalc [⟨"A", some 10, some 30⟩] "principal-employer" 7 0
              (3/2)).bonus) * (7/100) := by
  refine ⟨fun batch g scr br otr => rfl, ?_, ?_⟩ <;>
    norm_num +decide [createInvoiceFallbackCalc, batchRegOt, overtimeSplitStep,
      getOvertimeThreshold, jsOr, jsRound]

/-- Claim C2: the grand total adds CGST and SGST exactly when
`gstPaidBy = "ashapuri"` and is `round(totalBeforeTax)` otherwise; with
`totalBeforeTax = 100000` this gives 118000 and 100000 respectively, and
`gstAmount = cgst + sgst` is recorded regardless of the branch. -/
theorem claim_C2_grand_total_gst (batch : List Emp) (g : String) (scr br otr : ℚ) :
    (g = "ashapuri" →
      (createInvoiceFallbackCalc batch g scr br otr).grandTotal
        = jsRound ((createInvoiceFallbackCalc batch g scr br otr).totalBeforeTax
            + (createInvoiceFallbackCalc batch g scr br otr).cgst
            + (createInvoiceFallbackCalc batch g scr br otr).sgst)) ∧
    (g ≠ "ashapuri" →
      (createInvoiceFallbackCalc batch g scr br otr).grandTotal
        = jsRound (createInvoiceFallbackCalc batch g scr br otr).totalBeforeTax) ∧
    ((createInvoiceFallbackCalc batch g scr br otr).totalBeforeTax = 100000 →
      g = "ashapuri" →
      (createInvoiceFallbackCalc batch g scr br otr).grandTotal = 118000) ∧
    ((createInvoiceFallbackCalc batch g scr br otr).totalBeforeTax = 100000 →
      g ≠ "ashapuri" →
      (createInvoiceFallbackCalc batch g scr br otr).grandTotal = 100000) ∧
    (createInvoiceFallbackCalc batch g scr br otr).gstAmount
      = (createInvoiceFallbackCalc batch g scr br otr).cgst
        + (createInvoiceFallbackCalc batch g scr br otr).sgst := by
  have hc : (createInvoiceFallbackCalc batch g scr br otr).cgst
      = (createInvoiceFallbackCalc batch g scr br otr).totalBeforeTax * (9/100) := rfl
  have hs : (createInvoiceFallbackCalc batch g scr br otr).sgst
      = (createInvoiceFallbackCalc batch g scr br otr).totalBeforeTax * (9/100) := rfl
  have hash : ∀ h : g = "ashapuri",
      (createInvoiceFallbackCalc batch g scr br otr).grandTotal
        = jsRound ((createInvoiceFallbackCalc batch g scr br otr).totalBeforeTax
            + (createInvoiceFallbackCalc batch g scr br otr).cgst
            + (createInvoiceFallbackCalc batch g scr br otr).sgst) := by
    intro h
    simp [createInvoiceFallbackCalc, h]
  have hnash : ∀ _h : g ≠ "ashapuri",
      (createInvoiceFallbackCalc batch g scr br otr).grandTotal
        = jsRound (createInvoiceFallbackCalc batch g scr br otr).totalBeforeTax := by
    intro h
    simp [createInvoiceFallbackCalc, h]
  refine ⟨hash, hnash, ?_, ?_, rfl⟩
  · intro h100 hg
    rw [hash hg, hc, hs, h100]
    norm_num [jsRound]
  · intro h100 hg
    rw [hnash hg, h100]
    norm_num [jsRound]

/-- The concrete employee whose exact present-day count drives the
calculation to `totalBeforeTax = 100000` with a zero service-charge rate. -/
def demoE : Emp := ⟨"E", some (4000000/21669), some 1000⟩

/-- Witness for C2 at a batch reaching `totalBeforeTax = 100000`: grand
total 118000 under `"ashapuri"` and 100000 under `"principal-employer"`. -/
theorem claim_C2_witness :
    ((createInvoiceFallbackCalc [demoE] "ashapuri" 0 0 (3/2)).totalBeforeTax = 100000 ∧
     (createInvoiceFallbackCalc [demoE] "ashapuri" 0 0 (3/2)).grandTotal = 118000) ∧
    ((createInvoiceFallbackCalc [demoE] "principal-employer" 0 0 (3/2)).totalBeforeTax
        = 100000 ∧
     ("principal-employer" : String) ≠ "ashapuri" ∧
     (createInvoiceFallbackCalc [demoE] "principal-employer" 0 0 (3/2)).grandTotal
        = 100000) := by
  have hA : (createInvoiceFallbackCalc [demoE] "ashapuri" 0 0 (3/2)).totalBeforeTax
      = 100000 := by
    norm_num +decide [createInvoiceFallbackCalc, batchRegOt, overtimeSplitStep,
      getOvertimeThreshold, demoE, jsOr, jsRound]
  have hP : (createInvoiceFallbackCalc [demoE] "principal-employer" 0 0
      (3/2)).totalBeforeTax = 100000 := by
    norm_num +decide [createInvoiceFallbackCalc, batchRegOt, overtimeSplitStep,
      getOvertimeThreshold, demoE, jsOr, jsRound]
  refine ⟨⟨hA, ?_⟩, hP, by decide, ?_⟩
  · exact (claim_C2_grand_total_gst [demoE] "ashapuri" 0 0 (3/2)).2.2.1 hA rfl
  · exact (claim_C2_grand_total_gst [demoE] "principal-employer" 0 0 (3/2)).2.2.2.1 hP
      (by decide)

/-- Claim C3: the per-employee allocation always splits the present days
exactly: `regularDays + overtimeDays = presentDays`, for any threshold. -/
theorem claim_C3_allocation_sum (t perDayRate otr : ℚ) (e : Emp)
    (hp : 0 ≤ jsOr e.present_day 0) :
    (processEmployee t perDayRate otr e).regularDays
      + (processEmployee t perDayRate otr e).overtimeDays
      = (processEmployee t perDayRate otr e).presentDays := by
  by_cases h : t < jsOr e.present_day 0 <;> simp [processEmployee, h] <;> ring

/-- Witness for C3 at the spec's worked example: 28 present days against
threshold 26 split into 26 regular and 2 overtime. -/
theorem claim_C3_witness :
    (0 : ℚ) ≤ jsOr (Emp.mk "W" (some 28) (some 30)).present_day 0 ∧
    (processEmployee 26 466 (3/2) (Emp.mk "W" (some 28) (some 30))).regularDays
      + (processEmployee 26 466 (3/2) (Emp.mk "W" (some 28) (some 30))).overtimeDays
      = (processEmployee 26 466 (3/2) (Emp.mk "W" (some 28) (some 30))).presentDays :=
  ⟨by norm_num [jsOr], claim_C3_allocation_sum 26 466 (3/2) _ (by norm_num [jsOr])⟩

/-- Counterexample for C4: with every employee reporting `total_day = 0`
the threshold is `0 - 4 = -4 ≤ 0`, and an employee with 2 present days gets
`overtimeDays = 6 ≠ 2 = presentDays` and `regularDays = -4 ≠ 0` — not all
present days are classified as overtime in the claimed sense. -/
theorem claim_C4_counterexample :
    getOvertimeThreshold 0 ≤ 0 ∧
    (processEmployee (getOvertimeThreshold 0) 466 (3/2)
        (Emp.mk "A" (some 2) (some 0))).overtimeDays
      ≠ (processEmployee (getOvertimeThreshold 0) 466 (3/2)
          (Emp.mk "A" (some 2) (some 0))).presentDays ∧
    (processEmployee (getOvertimeThreshold 0) 466 (3/2)
        (Emp.mk "A" (some 2) (some 0))).regularDays ≠ 0 := by
  refine ⟨by norm_num [getOvertimeThreshold], ?_, ?_⟩ <;>
    norm_num [processEmployee, getOvertimeThreshold, jsOr]

/-- Claim C4, amended: for threshold exactly 0 every present day is
overtime (`overtimeDays = presentDays`, `regularDays = 0`); for a strictly
negative threshold the allocation instead assigns `regularDays = threshold`
(negative) and `overtimeDays = presentDays - threshold`, which exceeds the
present days. -/
theorem claim_C4_amended_nonpos_threshold (t perDayRate otr : ℚ) (e : Emp)
    (hp : 0 ≤ jsOr e.present_day 0) (ht : t ≤ 0) :
    (t = 0 →
      (processEmployee t perDayRate otr e).overtimeDays
        = (processEmployee t perDayRate otr e).presentDays ∧
      (processEmployee t perDayRate otr e).regularDays = 0) ∧
    (t < 0 →
      (processEmployee t perDayRate otr e).regularDays = t ∧
      (processEmployee t perDayRate otr e).overtimeDays
        = (processEmployee t perDayRate otr e).presentDays - t) := by
  constructor
  · rintro rfl
    by_cases h : (0 : ℚ) < jsOr e.present_day 0
    · simp [processEmployee, h]
    · have hp0 : jsOr e.present_day 0 = 0 := le_antisymm (not_lt.mp h) hp
      simp [processEmployee, h, hp0]
  · intro hlt
    have h : t < jsOr e.present_day 0 := lt_of_lt_of_le hlt hp
    simp [processEmployee, h]

/-- Witness for C4's amended statement at threshold `-4` (the
`workingDaysInMonth = 0` situation) and an employee with 2 present days. -/
theorem claim_C4_witness :
    (0 : ℚ) ≤ jsOr (Emp.mk "A" (some 2) (some 0)).present_day 0 ∧
    (-4 : ℚ) ≤ 0 ∧
    (((-4 : ℚ) = 0 →
      (processEmployee (-4) 466 (3/2) (Emp.mk "A" (some 2) (some 0))).overtimeDays
        = (processEmployee (-4) 466 (3/2) (Emp.mk "A" (some 2) (some 0))).presentDays ∧
      (processEmployee (-4) 466 (3/2) (Emp.mk "A" (some 2) (some 0))).regularDays = 0) ∧
    ((-4 : ℚ) < 0 →
      (processEmployee (-4) 466 (3/2) (Emp.mk "A" (some 2) (some 0))).regularDays = -4 ∧
      (processEmployee (-4) 466 (3/2) (Emp.mk "A" (some 2) (some 0))).overtimeDays
        = (processEmployee (-4) 466 (3/2) (Emp.mk "A" (some 2) (some 0))).presentDays
          - (-4))) :=
  ⟨by norm_num [jsOr], by norm_num,
    claim_C4_amended_nonpos_threshold (-4) 466 (3/2) _ (by norm_num [jsOr]) (by norm_num)⟩

/-- Claim C8 evaluations: `numberToWords 0` is the zero phrase and 25500
renders correctly, but 100000 renders as "ONE HUNDRED THOUSAND", not "ONE
LAKH" — the loop advances one Indian-scale label per factor of 1000, so the
lakh label is only reached at 10^6. -/
theorem claim_C8_number_to_words :
    numberToWords 0 = "Zero Rupees Only" ∧
    numberToWords 25500 = "TWENTY FIVE THOUSAND FIVE HUNDRED RUPEES ONLY" ∧
    numberToWords 100000 = "ONE HUNDRED THOUSAND RUPEES ONLY" ∧
    numberToWords 100000 ≠ "ONE LAKH RUPEES ONLY" := by
  have h100000 : numberToWords 100000 = "ONE HUNDRED THOUSAND RUPEES ONLY" := by
    simp [numberToWords, numberToWordsLoop, convertLessThanThousand, jsTrim, jsToUpper,
      ntwUnits, ntwTeens, ntwTens, ntwThousands]
  refine ⟨by decide, ?_, h100000, ?_⟩
  · simp [numberToWords, numberToWordsLoop, convertLessThanThousand, jsTrim, jsToUpper,
      ntwUnits, ntwTeens, ntwTens, ntwThousands]
  · rw [h100000]
    decide

/-- Claim C9 evaluations: for an empty employee batch every computed total
of the fallback calculation is zero, but the derived working-days value is
`Math.max()` of nothing, i.e. `-Infinity` (`⊥`), which is strictly below 0
and therefore not a well-defined non-negative number (the persisted
schema's `min: 0` bound on `attendanceData.workingDays` rejects it). -/
theorem claim_C9_empty_batch :
    batchWorkingDays [] = ⊥ ∧
    batchWorkingDays [] < ((0 : ℚ) : WithBot ℚ) ∧
    (createInvoiceFallbackCalc [] "principal-employer" 7 0 (3/2)).totalEmployees = 0 ∧
    (createInvoiceFallbackCalc [] "principal-employer" 7 0 (3/2)).totalPresentDays = 0 ∧
    (createInvoiceFallbackCalc [] "principal-employer" 7 0 (3/2)).totalOvertimeDays = 0 ∧
    (createInvoiceFallbackCalc [] "principal-employer" 7 0 (3/2)).baseTotal = 0 ∧
    (createInvoiceFallbackCalc [] "principal-employer" 7 0 (3/2)).overtimeAmount = 0 ∧
    (createInvoiceFallbackCalc [] "principal-employer" 7 0 (3/2)).pf = 0 ∧
    (createInvoiceFallbackCalc [] "principal-employer" 7 0 (3/2)).esic = 0 ∧
    (createInvoiceFallbackCalc [] "principal-employer" 7 0 (3/2)).bonus = 0 ∧
    (createInvoiceFallbackCalc [] "principal-employer" 7 0 (3/2)).roundOffSubTotal = 0 ∧
    (createInvoiceFallbackCalc [] "principal-employer" 7 0 (3/2)).serviceCharge = 0 ∧
    (createInvoiceFallbackCalc [] "principal-employer" 7 0 (3/2)).totalBeforeTax = 0 ∧
    (createInvoiceFallbackCalc [] "principal-employer" 7 0 (3/2)).gstAmount = 0 ∧
    (createInvoiceFallbackCalc [] "principal-employer" 7 0 (3/2)).grandTotal = 0 := by
  refine ⟨rfl, WithBot.bot_lt_coe 0, ?_, ?_, ?_, ?_, ?_, ?_, ?_, ?_, ?_, ?_, ?_, ?_, ?_⟩ <;>
    norm_num [createInvoiceFallbackCalc, batchRegOt, jsRound]
